import Mathlib

/-!
# Verification of the Binance email parsing / ingestion subsystem

A shallow embedding of the email classification, per-type parsing, and
ingestion pipeline of `src/services/gmailService.js` (class `GmailService`),
together with the Mongoose Dedup-Ledger model
`src/models/emailProcessingRecord.js`.

JavaScript regular expressions are embedded via a small backtracking regex
engine (`RE` / `matchRE`) that reproduces JS semantics for the feature subset
the source uses: literals (with the `i` flag), character classes, greedy and
lazy quantifiers over single-character classes, bounded repetition, optional
sub-patterns, alternation (left-priority), capture groups, `$`, and `\b`.
Matching is leftmost, first-success-in-backtracking-order like JS.

Conventions of the embedding:
* JS strings are Lean `String`s; the base64 decoding done by `getEmailBody`
  is elided (payload `data` already holds decoded text).
* JS numbers obtained through `parseFloat` are modelled exactly as `ℚ`
  (`jsParseFloat`); the captured numerals never use exponents or signs.
* `Date` values are epoch milliseconds (`Int`).  Parsing of RFC-2822 `Date:`
  headers by the `Date` constructor is an oracle parameter `dateParse`
  (`none` models an Invalid Date).  `Date.now()` and the `Math.random()`
  suffixes are passed in through a `Ctx` of ambient values.
* Fallible JS code is modelled with `Option` (null results) and
  `Except String` (thrown exceptions / rejected promises).
-/

deriving instance DecidableEq for Except

namespace AutoBitacora

/-! ## ASCII lowercasing (JS `toLowerCase` restricted to ASCII input) -/

def lowAscii (c : Char) : Char :=
  if 'A' ≤ c ∧ c ≤ 'Z' then Char.ofNat (c.toNat + 32) else c

def jsToLower (s : String) : String := ⟨s.toList.map lowAscii⟩

/-! ## JS character classes (ASCII fragment actually exercised by the source) -/

def jsSpace (c : Char) : Bool :=
  c == ' ' || c == '\t' || c == '\n' || c == '\r' ||
  c == Char.ofNat 11 || c == Char.ofNat 12 || c == Char.ofNat 160

/-- JS `String.prototype.trim` (whitespace from both ends). -/
def jsTrimList (cs : List Char) : List Char :=
  ((cs.dropWhile jsSpace).reverse.dropWhile jsSpace).reverse

def jsTrim (s : String) : String := ⟨jsTrimList s.toList⟩

def jsDigit (c : Char) : Bool := '0' ≤ c && c ≤ '9'

def asciiAlpha (c : Char) : Bool := ('a' ≤ c && c ≤ 'z') || ('A' ≤ c && c ≤ 'Z')

def asciiUpper (c : Char) : Bool := 'A' ≤ c && c ≤ 'Z'

def asciiAlnum (c : Char) : Bool := asciiAlpha c || jsDigit c

def jsWordChar (c : Char) : Bool := asciiAlnum c || c == '_'

/-- JS `.` without the `s` flag: anything but a line terminator. -/
def dotNoNL (c : Char) : Bool :=
  !(c == '\n' || c == '\r' || c == Char.ofNat 0x2028 || c == Char.ofNat 0x2029)

/-- JS `.` with the `s` flag. -/
def dotAll (_ : Char) : Bool := true

def digitComma (c : Char) : Bool := jsDigit c || c == ','

def hexDigit (c : Char) : Bool :=
  jsDigit c || ('a' ≤ c && c ≤ 'f') || ('A' ≤ c && c ≤ 'F')

def alnumDash (c : Char) : Bool := asciiAlnum c || c == '-'

def crlf (c : Char) : Bool := c == '\r' || c == '\n'

def alphaOrSpace (c : Char) : Bool := asciiAlpha c || jsSpace c

def notGtAtSpace (c : Char) : Bool := !(c == '>' || c == '@' || jsSpace c)

def ltOrSpace (c : Char) : Bool := c == '<' || jsSpace c

def gtOrSpace (c : Char) : Bool := c == '>' || jsSpace c

/-! ## Regex AST

Quantifiers (`star`, `rep`) range over single-character classes only, which is
all the source patterns need; `optR` is a general optional sub-pattern and
`alt` is left-priority alternation, as in JS. -/

inductive RE where
  | eps : RE
  | str (ci : Bool) (s : List Char) : RE
  | cls (p : Char → Bool) : RE
  | optR (r : RE) : RE
  | star (p : Char → Bool) (isLazy : Bool) : RE
  | rep (p : Char → Bool) (lo hi : Nat) : RE
  | seq (a b : RE) : RE
  | alt (a b : RE) : RE
  | group (i : Nat) (r : RE) : RE
  | eos : RE
  | wordB : RE

def ciEq (ci : Bool) (pat c : Char) : Bool :=
  if ci then lowAscii pat == lowAscii c else pat == c

/-- Consume a literal: returns remaining input and last consumed char. -/
def strStep (ci : Bool) : List Char → List Char → Option Char →
    Option (List Char × Option Char)
  | [], cs, prev => some (cs, prev)
  | _ :: _, [], _ => none
  | p :: ps, c :: cs, _ =>
    if ciEq ci p c then strStep ci ps cs (some c) else none

/-- All ways a greedy/lazy class star can consume input, in JS backtracking
priority order (longest-first when greedy, shortest-first when lazy). -/
def starCls (p : Char → Bool) (isLazy : Bool) :
    List Char → Option Char → List (List Char × Option Char)
  | [], prev => [([], prev)]
  | c :: rest, prev =>
    let go := if p c then starCls p isLazy rest (some c) else []
    if isLazy then (c :: rest, prev) :: go else go ++ [(c :: rest, prev)]

/-- Bounded greedy repetition `p{lo,hi}` (longest-first). -/
def repCls (p : Char → Bool) : Nat → Nat → List Char → Option Char →
    List (List Char × Option Char)
  | lo, 0, cs, prev => if lo == 0 then [(cs, prev)] else []
  | lo, hi + 1, cs, prev =>
    let stay := if lo == 0 then [(cs, prev)] else []
    match cs with
    | [] => stay
    | c :: rest =>
      (if p c then repCls p (lo - 1) hi rest (some c) else []) ++ stay

abbrev Caps := List (Nat × List Char)

abbrev MRes := List Char × Option Char × Caps

def isWordO : Option Char → Bool
  | none => false
  | some c => jsWordChar c

/-- Backtracking matcher.  Returns every way `r` can match a prefix of `cs`
(as the remaining suffix, the char preceding it, and the captures), in JS
priority order; the engine's overall answer is the head of this list. -/
def matchRE : RE → List Char → Option Char → Caps → List MRes
  | .eps, cs, prev, caps => [(cs, prev, caps)]
  | .str ci s, cs, prev, caps =>
    match strStep ci s cs prev with
    | some (cs', prev') => [(cs', prev', caps)]
    | none => []
  | .cls p, cs, _prev, caps =>
    match cs with
    | [] => []
    | c :: rest => if p c then [(rest, some c, caps)] else []
  | .optR r, cs, prev, caps => matchRE r cs prev caps ++ [(cs, prev, caps)]
  | .star p lz, cs, prev, caps =>
    (starCls p lz cs prev).map (fun x => (x.1, x.2, caps))
  | .rep p lo hi, cs, prev, caps =>
    (repCls p lo hi cs prev).map (fun x => (x.1, x.2, caps))
  | .seq a b, cs, prev, caps =>
    (matchRE a cs prev caps).flatMap (fun x => matchRE b x.1 x.2.1 x.2.2)
  | .alt a b, cs, prev, caps => matchRE a cs prev caps ++ matchRE b cs prev caps
  | .group i r, cs, prev, caps =>
    (matchRE r cs prev caps).map
      (fun x => (x.1, x.2.1, (i, cs.take (cs.length - x.1.length)) :: x.2.2))
  | .eos, cs, prev, caps => if cs.isEmpty then [(cs, prev, caps)] else []
  | .wordB, cs, prev, caps =>
    if isWordO prev != isWordO cs.head? then [(cs, prev, caps)] else []

/-- Leftmost search: try the match at each start position in turn. -/
def searchFrom (r : RE) : List Char → Option Char → Option (List Char × MRes)
  | cs, prev =>
    match (matchRE r cs prev []).head? with
    | some res => some (cs, res)
    | none =>
      match cs with
      | [] => none
      | c :: rest => searchFrom r rest (some c)

structure MatchResult where
  whole : List Char
  caps : Caps
deriving Repr

/-- `String.prototype.match` without the `g` flag (leftmost match). -/
def jsMatch (r : RE) (s : String) : Option MatchResult :=
  match searchFrom r s.toList none with
  | some (cs, res) => some ⟨cs.take (cs.length - res.1.length), res.2.2⟩
  | none => none

/-- Capture group `i` of a match (`none` = JS `undefined`). -/
def MatchResult.grp (m : MatchResult) (i : Nat) : Option String :=
  (m.caps.lookup i).map List.asString

/-- `RegExp.prototype.test`. -/
def jsTest (r : RE) (s : String) : Bool := (jsMatch r s).isSome

/-! ## Regex construction helpers -/

def lit (s : String) : RE := .str false s.toList

def litCI (s : String) : RE := .str true s.toList

def cat (rs : List RE) : RE := rs.foldr RE.seq RE.eps

/-- `p+` (greedy). -/
def plusC (p : Char → Bool) : RE := .seq (.cls p) (.star p false)

/-- left-priority alternation of a list of branches -/
def altL : List RE → RE
  | [] => .eps
  | [r] => r
  | r :: rs => .alt r (altL rs)

/-- `p{n,}` (greedy): exactly `n` then a greedy star. -/
def repAtLeast (p : Char → Bool) (n : Nat) : RE := .seq (.rep p n n) (.star p false)

/-! ## Misc JS string helpers -/

def hasInfix : List Char → List Char → Bool
  | s, sub =>
    if sub.isPrefixOf s then true
    else
      match s with
      | [] => false
      | _ :: rest => hasInfix rest sub

/-- `String.prototype.includes` (case sensitive). -/
def jsIncludes (s sub : String) : Bool := hasInfix s.toList sub.toList

/-- `str.replace(/,/g, "")`. -/
def stripCommas (s : String) : String := ⟨s.toList.filter (fun c => c != ',')⟩

def digitsVal (ds : List Char) : ℕ :=
  ds.foldl (fun a c => a * 10 + (c.toNat - 48)) 0

/-- JS `parseFloat` restricted to the numeral shapes the captured groups can
produce (optional leading whitespace, digits, optional fraction; trailing
garbage ignored).  `none` models `NaN`; the value is represented exactly as
a rational (`ip + fp / 10 ^ len`, built with `mkRat` so that it computes by
kernel reduction). -/
def jsParseFloat (s : String) : Option ℚ :=
  let cs := (s.toList).dropWhile jsSpace
  let ip := cs.takeWhile jsDigit
  let rest := cs.drop ip.length
  let fp :=
    match rest with
    | '.' :: r => r.takeWhile jsDigit
    | _ => []
  if ip.isEmpty && fp.isEmpty then none
  else some (mkRat (digitsVal ip * 10 ^ fp.length + digitsVal fp) (10 ^ fp.length))

/-- Exact rational multiplication via `mkRat` (same value as `ℚ`
multiplication; formulated to compute by kernel reduction). -/
def jsMul (a b : ℚ) : ℚ := mkRat (a.num * b.num) (a.den * b.den)

/-- Exact rational division via `mkRat` (same value as `ℚ` division for a
non-zero divisor; division by zero yields 0 here where JS would produce
Infinity — the parsers only divide by matched positive numerals). -/
def jsDiv (a b : ℚ) : ℚ :=
  let n := a.num * (b.den : Int)
  let m := (a.den : Int) * b.num
  if m < 0 then mkRat (-n) (-m).toNat else mkRat n m.toNat

/-! ## The source's regex literals

Each definition is annotated with the JS literal it embeds, from
`src/services/gmailService.js`. -/

/-- `([0-9,]+\.?\d*)` as capture group 1. -/
def amtOptFrac : RE :=
  .group 1 (cat [plusC digitComma, .optR (lit "."), .star jsDigit false])

/-- `([0-9,]+\.\d+)` as capture group 1. -/
def amtFrac : RE := .group 1 (cat [plusC digitComma, lit ".", plusC jsDigit])

/-- `([A-Z]{2,10})` under the `i` flag, as capture group 2. -/
def curGrp2 : RE := .group 2 (.rep asciiAlpha 2 10)

/-- Deposit pattern 1: `/deposit of ([0-9,]+\.?\d*)\s*([A-Z]{2,10})/i` -/
def dp1 : RE := cat [litCI "deposit of ", amtOptFrac, .star jsSpace false, curGrp2]

/-- Deposit pattern 2: `/([0-9,]+\.?\d*)\s*([A-Z]{2,10})\s+has been deposited/i` -/
def dp2 : RE :=
  cat [amtOptFrac, .star jsSpace false, curGrp2, plusC jsSpace,
    litCI "has been deposited"]

/-- Deposit pattern 3:
`/deposit of ([0-9,]+\.?\d*)\s*([A-Z]{2,10})\s+is now available/i` -/
def dp3 : RE :=
  cat [litCI "deposit of ", amtOptFrac, .star jsSpace false, curGrp2,
    plusC jsSpace, litCI "is now available"]

/-- Deposit pattern 4: `/deposit of ([0-9,]+\.\d+)\s*([A-Z]{2,10})/i` -/
def dp4 : RE := cat [litCI "deposit of ", amtFrac, .star jsSpace false, curGrp2]

/-- Deposit pattern 5: `/deposit of ([0-9,]+)\s+/i` (no currency group). -/
def dp5 : RE := cat [litCI "deposit of ", .group 1 (plusC digitComma), plusC jsSpace]

/-- Deposit pattern 6: `/Amount:\s*([0-9,]+\.?\d*)\s*([A-Z]{2,10})/i` -/
def dp6 : RE :=
  cat [litCI "Amount:", .star jsSpace false, amtOptFrac, .star jsSpace false, curGrp2]

/-- `/\b(USDT|BTC|ETH|BNB|BUSD)\b/i` — the standalone currency whitelist. -/
def whitelistRe : RE :=
  cat [.wordB,
    .group 1 (altL [litCI "USDT", litCI "BTC", litCI "ETH", litCI "BNB", litCI "BUSD"]),
    .wordB]

/-- Withdrawal pattern 1: `/withdrawn\s+([0-9,]+\.\d+)\s*([A-Z]{2,10})/i` -/
def wp1 : RE :=
  cat [litCI "withdrawn", plusC jsSpace, amtFrac, .star jsSpace false, curGrp2]

/-- Withdrawal pattern 2:
`/Withdrawal Amount:[\s\n]*([0-9,]+\.\d+)\s*([A-Z]{2,10})/i` -/
def wp2 : RE :=
  cat [litCI "Withdrawal Amount:", .star jsSpace false, amtFrac,
    .star jsSpace false, curGrp2]

/-- Withdrawal pattern 3: `/([0-9,]+\.\d+)\s*([A-Z]{2,10})\s+has been withdrawn/i` -/
def wp3 : RE :=
  cat [amtFrac, .star jsSpace false, curGrp2, plusC jsSpace,
    litCI "has been withdrawn"]

/-- `/Transaction ID:?\s*([a-zA-Z0-9-]+)/i` -/
def txIdRe1 : RE :=
  cat [litCI "Transaction ID", .optR (lit ":"), .star jsSpace false,
    .group 1 (plusC alnumDash)]

/-- `/TxID:?\s*([a-zA-Z0-9-]+)/i` -/
def txIdRe2 : RE :=
  cat [litCI "TxID", .optR (lit ":"), .star jsSpace false, .group 1 (plusC alnumDash)]

/-- `/Transaction ID:?\s*(0x[a-fA-F0-9]+)/i` -/
def txIdRe3 : RE :=
  cat [litCI "Transaction ID", .optR (lit ":"), .star jsSpace false,
    .group 1 (cat [litCI "0x", plusC hexDigit])]

/-- `/Hash:?\s*([a-zA-Z0-9-]+)/i` -/
def txIdRe4 : RE :=
  cat [litCI "Hash", .optR (lit ":"), .star jsSpace false, .group 1 (plusC alnumDash)]

/-- `/Withdrawal Address:?\s*(0x[a-fA-F0-9]+)/i` -/
def addrRe1 : RE :=
  cat [litCI "Withdrawal Address", .optR (lit ":"), .star jsSpace false,
    .group 1 (cat [litCI "0x", plusC hexDigit])]

/-- `/Withdrawal Address:?\s*([a-zA-Z0-9]{24,})/i` -/
def addrRe2 : RE :=
  cat [litCI "Withdrawal Address", .optR (lit ":"), .star jsSpace false,
    .group 1 (repAtLeast asciiAlnum 24)]

/-- `/Receiving Address:?\s*([a-zA-Z0-9]{24,})/i` -/
def addrRe3 : RE :=
  cat [litCI "Receiving Address", .optR (lit ":"), .star jsSpace false,
    .group 1 (repAtLeast asciiAlnum 24)]

/-- `/Address:?\s*([a-zA-Z0-9]{24,})/i` -/
def addrRe4 : RE :=
  cat [litCI "Address", .optR (lit ":"), .star jsSpace false,
    .group 1 (repAtLeast asciiAlnum 24)]

/-- `/to:?\s*([a-zA-Z0-9]{24,})/i` -/
def addrRe5 : RE :=
  cat [litCI "to", .optR (lit ":"), .star jsSpace false,
    .group 1 (repAtLeast asciiAlnum 24)]

/-- `(\d+(\.\d+)?)` — number with optional fraction, groups 1 and 2. -/
def numOptFrac : RE :=
  .group 1 (.seq (plusC jsDigit) (.optR (.group 2 (.seq (lit ".") (plusC jsDigit)))))

/-- P2P / trade amount+symbol: `/(\d+(\.\d+)?)\s*([A-Z]{2,10})/` (case sensitive). -/
def p2pCryptoRe : RE :=
  cat [numOptFrac, .star jsSpace false, .group 3 (.rep asciiUpper 2 10)]

/-- `/(\d+(\.\d+)?)\s*(USD|EUR|GBP|ARS)/i` -/
def p2pFiatRe : RE :=
  cat [numOptFrac, .star jsSpace false,
    .group 3 (altL [litCI "USD", litCI "EUR", litCI "GBP", litCI "ARS"])]

/-- `/payment method:?\s*([a-zA-Z]+)/i` -/
def payMethodRe : RE :=
  cat [litCI "payment method", .optR (lit ":"), .star jsSpace false,
    .group 1 (plusC asciiAlpha)]

/-- `/price:?\s*(\d+(\.\d+)?)/i` -/
def priceRe1 : RE :=
  cat [litCI "price", .optR (lit ":"), .star jsSpace false, numOptFrac]

/-- `/at:?\s*(\d+(\.\d+)?)/i` -/
def priceRe2 : RE :=
  cat [litCI "at", .optR (lit ":"), .star jsSpace false, numOptFrac]

/-- `/\[Binance\](.*?)(?:\s*-\s*|$)/` — payment title extraction (case
sensitive, lazy group, and `$` is end-of-input without the `m` flag). -/
def titleRe : RE :=
  cat [lit "[Binance]", .group 1 (.star dotNoNL true),
    .alt (cat [.star jsSpace false, lit "-", .star jsSpace false]) .eos]

/-- `/(\d{4}-\d{2}-\d{2}\s+\d{2}:\d{2}:\d{2})/` — subject timestamp. -/
def tsRe : RE :=
  .group 1 (cat [.rep jsDigit 4 4, lit "-", .rep jsDigit 2 2, lit "-",
    .rep jsDigit 2 2, plusC jsSpace, .rep jsDigit 2 2, lit ":",
    .rep jsDigit 2 2, lit ":", .rep jsDigit 2 2])

/-- `([A-Z]+)` under `i`, group 2 for the payment amount patterns. -/
def payCurAnyLen : RE := .group 2 (plusC asciiAlpha)

/-- `([A-Z]{3,5})` under `i`, group 2. -/
def payCur35 : RE := .group 2 (.rep asciiAlpha 3 5)

/-- Payment pattern 1: `/Amount:[\s\n]*([0-9,]+\.\d+)\s*([A-Z]+)/i` -/
def pp1 : RE :=
  cat [litCI "Amount:", .star jsSpace false, amtFrac, .star jsSpace false,
    payCurAnyLen]

/-- Payment pattern 2: `/Amount:\s*[\r\n]+([0-9,]+\.\d+)\s*([A-Z]+)/i` -/
def pp2 : RE :=
  cat [litCI "Amount:", .star jsSpace false, plusC crlf, amtFrac,
    .star jsSpace false, payCurAnyLen]

/-- Payment pattern 3:
`/Time:[\s\n]*.*?[\s\n]+([0-9,]+\.\d+)\s*([A-Z]{3,5})/is` (dot-all, lazy). -/
def pp3 : RE :=
  cat [litCI "Time:", .star jsSpace false, .star dotAll true, plusC jsSpace,
    amtFrac, .star jsSpace false, payCur35]

/-- Payment pattern 4: `/for\s+([0-9,]+\.\d+)\s*([A-Z]{3,5})/i` -/
def pp4 : RE := cat [litCI "for", plusC jsSpace, amtFrac, .star jsSpace false, payCur35]

/-- Payment pattern 5: `/of\s+([0-9,]+\.\d+)\s*([A-Z]{3,5})/i` -/
def pp5 : RE := cat [litCI "of", plusC jsSpace, amtFrac, .star jsSpace false, payCur35]

/-- Payment pattern 6:
`/([0-9,]+\.\d+)\s*([A-Z]{3,5})\s*(?:has been sent|paid)/i` -/
def pp6 : RE :=
  cat [amtFrac, .star jsSpace false, payCur35, .star jsSpace false,
    altL [litCI "has been sent", litCI "paid"]]

/-- Payment pattern 7: `/([0-9,]+\.\d+)\s*([A-Z]{3,5})/i` -/
def pp7 : RE := cat [amtFrac, .star jsSpace false, payCur35]

/-- `/(?:Order|Transaction)\s*(?:No|ID|Number)?\.?:\s*([A-Za-z0-9-]+)/i` -/
def payTxIdRe : RE :=
  cat [altL [litCI "Order", litCI "Transaction"], .star jsSpace false,
    .optR (altL [litCI "No", litCI "ID", litCI "Number"]), .optR (lit "."),
    lit ":", .star jsSpace false, .group 1 (plusC alnumDash)]

/-- `/\[Binance\]\s*([A-Za-z\s]+)(?:\s*-\s*|\s+)(.*)/i` — generic subject. -/
def subjectPatternRe : RE :=
  cat [litCI "[Binance]", .star jsSpace false, .group 1 (plusC alphaOrSpace),
    .alt (cat [.star jsSpace false, lit "-", .star jsSpace false]) (plusC jsSpace),
    .group 2 (.star dotNoNL false)]

/-- `/From:\s*.*?[<\s]([^>@\s]+@[^>@\s]+)[>\s]/i` — forwarded original sender. -/
def forwardedFromRe : RE :=
  cat [litCI "From:", .star jsSpace false, .star dotNoNL true, .cls ltOrSpace,
    .group 1 (cat [plusC notGtAtSpace, lit "@", plusC notGtAtSpace]),
    .cls gtOrSpace]

/-! ## Ambient values and record shapes -/

def jsToUpper (s : String) : String :=
  ⟨s.toList.map (fun c => if 'a' ≤ c ∧ c ≤ 'z' then Char.ofNat (c.toNat - 32) else c)⟩

/-- Ambient values of a run: `Date.now()` and the `Math.random()`-derived
suffix used inside generated order ids. -/
structure Ctx where
  now : Int
  rand : String
deriving DecidableEq, Repr

structure PaymentDetails where
  method : String
  currency : String
deriving DecidableEq, Repr

/-- The transaction-object shape produced by the parsers.  Fields that some
parsers omit are `Option`s (`none` = absent / JS `null`). -/
structure Tx where
  orderId : String
  platform : String
  transactionType : String
  symbol : String
  side : String
  type : Option String
  price : Option ℚ
  quantity : ℚ
  quoteQuantity : Option ℚ
  status : String
  time : Int
  updateTime : Int
  walletAddress : Option String
  paymentDetails : Option PaymentDetails
  sourceType : String
deriving DecidableEq, Repr

/-! ## Subject forwarding normalization (gmailService lines 129-131, 383-384,
791-793) -/

/-- `subject.toLowerCase().startsWith('fwd:') || ...startsWith('fw:')` -/
def isFwdSubject (s : String) : Bool :=
  "fwd:".toList.isPrefixOf (jsToLower s).toList ||
  "fw:".toList.isPrefixOf (jsToLower s).toList

/-- `subject.replace(/^(fwd:|fw:)\s*/i, '').trim()` (only ever invoked when
`isFwdSubject`; the anchored alternation tries `fwd:` first). -/
def fwdStrip (s : String) : String :=
  let n : Nat :=
    if "fwd:".toList.isPrefixOf (jsToLower s).toList then 4
    else if "fw:".toList.isPrefixOf (jsToLower s).toList then 3
    else 0
  if n == 0 then s
  else jsTrim ⟨(s.toList.drop n).dropWhile jsSpace⟩

/-! ## Subject-embedded timestamp (payment parser)

`new Date(match + 'Z')` for a string matched by `tsRe`; converted to epoch
milliseconds with the standard civil-calendar formula (all intermediate
divisions have non-negative operands for the years that occur). -/

def daysFromCivil (y m d : Int) : Int :=
  let y := if m ≤ 2 then y - 1 else y
  let era := y / 400
  let yoe := y - era * 400
  let mp := (m + 9) % 12
  let doy := (153 * mp + 2) / 5 + d - 1
  let doe := yoe * 365 + yoe / 4 - yoe / 100 + doy
  era * 146097 + doe - 719468

/-- Epoch ms of a `"YYYY-MM-DD<ws>HH:MM:SS"` string (shape guaranteed by
`tsRe`), interpreted as UTC. -/
def tsToEpochMs (s : String) : Int :=
  let cs := s.toList
  let y : Int := digitsVal (cs.take 4)
  let mo : Int := digitsVal ((cs.drop 5).take 2)
  let d : Int := digitsVal ((cs.drop 8).take 2)
  let rest := (cs.drop 10).dropWhile jsSpace
  let hh : Int := digitsVal (rest.take 2)
  let mi : Int := digitsVal ((rest.drop 3).take 2)
  let ss : Int := digitsVal ((rest.drop 6).take 2)
  ((daysFromCivil y mo d * 24 + hh) * 60 + mi) * 60000 + ss * 1000

/-! ## The five type parsers -/

def depositPatterns : List RE := [dp1, dp2, dp3, dp4, dp5, dp6]

/-- The deposit pattern loop (gmailService lines 497-539): first matching
pattern wins; commas stripped from the amount; a missing currency capture
falls back to the standalone whitelist token search. -/
def depositScan (body : String) : Option (String × Option String) :=
  (depositPatterns.findSome? (fun p => jsMatch p body)).map (fun m =>
    let quantity := stripCommas ((m.grp 1).getD "")
    let currency :=
      match m.grp 2 with
      | some c => some c
      | none =>
        (jsMatch whitelistRe body).map (fun wm => jsToUpper ((wm.grp 1).getD ""))
    (quantity, currency))

/-- `parseDepositEmail(body, emailDate)`; `none` models the JS `null`. -/
def parseDepositEmail (ctx : Ctx) (body : String) (emailDate : Int) :
    Option (List Tx) :=
  match depositScan body with
  | none => none
  | some (q, cur) =>
    match jsParseFloat q with
    | none => none
    | some v =>
      let currency := cur.getD "USDT"
      some [{ transactionType := "DEPOSIT"
              orderId := "DEP" ++ toString ctx.now
              platform := "BINANCE"
              status := "COMPLETED"
              symbol := currency
              quantity := v
              price := some 1
              side := "BUY"
              time := emailDate
              updateTime := emailDate
              sourceType := "EMAIL"
              type := none, quoteQuantity := none
              walletAddress := none, paymentDetails := none }]

def withdrawalPatterns : List RE := [wp1, wp2, wp3]

def withdrawalTxIdPatterns : List RE := [txIdRe1, txIdRe2, txIdRe3, txIdRe4]

def withdrawalAddrPatterns : List RE := [addrRe1, addrRe2, addrRe3, addrRe4, addrRe5]

/-- `parseWithdrawalEmail(body, emailDate)`. -/
def parseWithdrawalEmail (ctx : Ctx) (body : String) (emailDate : Int) :
    Option (List Tx) :=
  match withdrawalPatterns.findSome? (fun p => jsMatch p body) with
  | none => none
  | some m =>
    let quantity := (jsParseFloat (stripCommas ((m.grp 1).getD ""))).getD 0
    let symbol := (m.grp 2).getD ""
    let txId :=
      ((withdrawalTxIdPatterns.findSome? (fun p => jsMatch p body)).bind
        (fun mm => mm.grp 1)).getD ""
    let walletAddress :=
      ((withdrawalAddrPatterns.findSome? (fun p => jsMatch p body)).bind
        (fun mm => mm.grp 1)).getD ""
    let orderId := if txId == "" then "WD" ++ toString ctx.now else txId
    some [{ transactionType := "WITHDRAWAL"
            orderId := orderId
            platform := "BINANCE"
            status := "COMPLETED"
            symbol := symbol
            quantity := quantity
            price := some 1
            side := "SELL"
            time := emailDate
            updateTime := emailDate
            walletAddress := some walletAddress
            sourceType := "EMAIL"
            type := none, quoteQuantity := none, paymentDetails := none }]

/-- `parseP2PEmail(body, emailDate)`; failure yields `[]`. -/
def parseP2PEmail (ctx : Ctx) (body : String) (emailDate : Int) : List Tx :=
  match jsMatch p2pCryptoRe body, jsMatch p2pFiatRe body with
  | some cm, some fm =>
    let quantity := (jsParseFloat ((cm.grp 1).getD "")).getD 0
    let symbol := (cm.grp 3).getD ""
    let quoteQuantity := (jsParseFloat ((fm.grp 1).getD "")).getD 0
    let fiatCurrency := jsToUpper ((fm.grp 3).getD "")
    -- `quoteQuantity / quantity` (exact rational division)
    let price := jsDiv quoteQuantity quantity
    let paymentMethod := ((jsMatch payMethodRe body).bind (fun mm => mm.grp 1)).getD ""
    let orderId := "p2p-" ++ toString ctx.now ++ "-" ++ ctx.rand
    [{ orderId := orderId
       platform := "BINANCE"
       transactionType := "P2P_SELL"
       symbol := symbol
       side := "SELL"
       type := some "P2P"
       price := some price
       quantity := quantity
       quoteQuantity := some quoteQuantity
       status := "COMPLETED"
       time := emailDate
       updateTime := emailDate
       paymentDetails := some { method := paymentMethod, currency := fiatCurrency }
       sourceType := "GMAIL"
       walletAddress := none }]
  | _, _ => []

/-- `parseTradeEmail(body, emailDate, side)`; failure yields `[]`. -/
def parseTradeEmail (ctx : Ctx) (body : String) (emailDate : Int) (side : String) :
    List Tx :=
  match jsMatch p2pCryptoRe body with
  | none => []
  | some qm =>
    let quantity := (jsParseFloat ((qm.grp 1).getD "")).getD 0
    let symbol := (qm.grp 3).getD ""
    let priceMatch := (jsMatch priceRe1 body) <|> (jsMatch priceRe2 body)
    let price :=
      match priceMatch with
      | some pm => (jsParseFloat ((pm.grp 1).getD "")).getD 0
      | none => 1
    let quoteQuantity := jsMul price quantity
    let orderId := "trade-" ++ toString ctx.now ++ "-" ++ ctx.rand
    [{ orderId := orderId
       platform := "BINANCE"
       transactionType := "TRADE"
       symbol := symbol
       side := side
       type := some "MARKET"
       price := some price
       quantity := quantity
       quoteQuantity := some quoteQuantity
       status := "FILLED"
       time := emailDate
       updateTime := emailDate
       sourceType := "GMAIL"
       walletAddress := none, paymentDetails := none }]

def paymentPatterns : List RE := [pp1, pp2, pp3, pp4, pp5, pp6, pp7]

/-- The defensive title extraction of `parsePaymentEmail` (lines 796-803):
note that when `titleRe` does not match at all, `title` falls back to the
string `"Payment Transaction Detail"`, which passes the check. -/
def paymentTitle (subject : String) : String :=
  match jsMatch titleRe subject with
  | some m => jsTrim ((m.grp 1).getD "")
  | none => "Payment Transaction Detail"

/-- `parsePaymentEmail(body, subject, emailDate)`; failure yields `[]`. -/
def parsePaymentEmail (ctx : Ctx) (body subject : String) (emailDate : Int) :
    List Tx :=
  let subject := if isFwdSubject subject then fwdStrip subject else subject
  let title := paymentTitle subject
  if !(jsIncludes title "Payment Transaction Detail") then []
  else
    let timestamp :=
      match (jsMatch tsRe subject).bind (fun m => m.grp 1) with
      | some t => tsToEpochMs t
      | none => emailDate
    match paymentPatterns.findSome? (fun p => jsMatch p body) with
    | none => []
    | some m =>
      let amount := (jsParseFloat (stripCommas ((m.grp 1).getD ""))).getD 0
      let currency := (m.grp 2).getD ""
      let orderId :=
        match (jsMatch payTxIdRe body).bind (fun mm => mm.grp 1) with
        | some t => t
        | none => "binance-payment-" ++ toString timestamp ++ "-" ++ ctx.rand
      [{ orderId := orderId
         platform := "BINANCE"
         transactionType := "PAYMENT"
         symbol := currency
         quantity := amount
         side := "SELL"
         type := some "PAYMENT"
         status := "COMPLETED"
         time := timestamp
         updateTime := timestamp
         price := none
         quoteQuantity := some amount
         sourceType := "GMAIL"
         paymentDetails := some { method := "BINANCE_PAY", currency := currency }
         walletAddress := none }]

/-! ## Classifier (`extractTransactionDetails`, lines 380-484) -/

def fwdMarker : String := "---------- Forwarded message ---------"

/-- The text after the first occurrence of `marker` (none when absent). -/
def chopAfter : List Char → List Char → Option (List Char)
  | s, marker =>
    if marker.isPrefixOf s then some (s.drop marker.length)
    else
      match s with
      | [] => none
      | _ :: rest => chopAfter rest marker

/-- The text before the first occurrence of `marker` (everything when
absent). -/
def segBefore : List Char → List Char → List Char
  | s, marker =>
    if marker.isPrefixOf s then []
    else
      match s with
      | [] => []
      | c :: rest => c :: segBefore rest marker

/-- `body.split(marker)[1]` when the marker occurs: the segment between the
first occurrence and the next occurrence (or the end). -/
def splitAfterMarker (body : String) : String :=
  match chopAfter body.toList fwdMarker.toList with
  | none => body
  | some rest => ⟨segBefore rest fwdMarker.toList⟩

/-- Subject type detection (lines 404-447): the five specific patterns in
priority order, then the generic `[Binance]` subject fallback.  Returns
`(transactionType, side)`. -/
def detectTypeSide (ns nb : String) : String × String :=
  if jsTest (litCI "USDT Deposit Confirmed") ns then ("DEPOSIT", "BUY")
  else if jsTest (litCI "USDT Withdrawal Successful") ns then ("WITHDRAWAL", "SELL")
  else if jsTest (litCI "P2P order completed") ns then ("P2P_SELL", "SELL")
  else if jsTest (litCI "Order Filled") ns then
    ("TRADE", if jsTest (litCI "sold") nb then "SELL" else "BUY")
  else if jsTest (litCI "Payment Transaction Detail") ns then ("PAYMENT", "SELL")
  else
    match jsMatch subjectPatternRe ns with
    | some m =>
      let desc := jsToLower (jsTrim ((m.grp 1).getD ""))
      if jsIncludes desc "deposit" then ("DEPOSIT", "BUY")
      else if jsIncludes desc "withdrawal" then ("WITHDRAWAL", "SELL")
      else if jsIncludes desc "payment" then ("PAYMENT", "SELL")
      else if jsIncludes desc "order" || jsIncludes desc "trade" then
        ("TRADE", if jsTest (litCI "sold") nb then "SELL" else "BUY")
      else ("OTHER", "")
    | none => ("OTHER", "")

/-- The post-normalization part of `extractTransactionDetails`: dispatch on
the detected type (the `switch` of lines 452-475), with the body-keyword
fallback of the `default` case. -/
def extractCore (ctx : Ctx) (nb ns : String) (d : Int) : Option (List Tx) :=
  let ts := detectTypeSide ns nb
  if ts.1 == "DEPOSIT" then parseDepositEmail ctx nb d
  else if ts.1 == "WITHDRAWAL" then parseWithdrawalEmail ctx nb d
  else if ts.1 == "P2P_SELL" then some (parseP2PEmail ctx nb d)
  else if ts.1 == "TRADE" then some (parseTradeEmail ctx nb d ts.2)
  else if ts.1 == "PAYMENT" then some (parsePaymentEmail ctx nb ns d)
  else
    if jsIncludes nb "deposit" && jsIncludes nb "completed" then
      parseDepositEmail ctx nb d
    else if jsIncludes nb "withdrawal" &&
        (jsIncludes nb "completed" || jsIncludes nb "successful") then
      parseWithdrawalEmail ctx nb d
    else if jsIncludes nb "payment" && jsIncludes nb "transaction" then
      some (parsePaymentEmail ctx nb ns d)
    else some []

/-- `extractTransactionDetails(body, subject, emailDate)`.  The forwarded-body
split happens only when the subject has a `fwd:`/`fw:` prefix (line 388 tests
`isForwarded && body.includes(marker)`); the original-subject sniffing of
lines 389-394 only feeds a debug log and is elided. -/
def extractTransactionDetails (ctx : Ctx) (body subject : String) (d : Int) :
    Option (List Tx) :=
  let isFwd := isFwdSubject subject
  let ns := if isFwd then fwdStrip subject else subject
  let nb := if isFwd && jsIncludes body fwdMarker then splitAfterMarker body else body
  extractCore ctx nb ns d

/-! ## Email message model and body extraction -/

/-- Gmail message payload tree: `mimeType`, decoded `body.data`, nested
`parts`.  (Base64 decoding is elided: `data` is already text; `none` models
an absent `body.data`.) -/
inductive Payload where
  | mk (mimeType : String) (data : Option String) (parts : List Payload)

def Payload.mimeType : Payload → String
  | .mk mt _ _ => mt

def Payload.data : Payload → Option String
  | .mk _ d _ => d

def Payload.parts : Payload → List Payload
  | .mk _ _ ps => ps

/-- `/<[^>]*>/g` replaced by a space (`getEmailBody`'s HTML stripping).  A
`<` with no later `>` is left in place, as in JS. -/
def stripTagsAux : List Char → List Char
  | [] => []
  | c :: rest =>
    if c == '<' then
      if (rest.takeWhile (fun x => x != '>')).length < rest.length then
        ' ' :: stripTagsAux (rest.drop ((rest.takeWhile (fun x => x != '>')).length + 1))
      else c :: rest
    else c :: stripTagsAux rest
termination_by l => l.length
decreasing_by
  all_goals simp only [List.length_drop, List.length_cons]
  all_goals omega

def stripHtmlTags (s : String) : String := ⟨stripTagsAux s.toList⟩

/-- `getEmailBody(payload)` (lines 343-371). -/
def getEmailBody (p : Payload) : String :=
  if p.mimeType == "text/plain" then (p.data).getD ""
  else if p.mimeType == "text/html" then stripHtmlTags ((p.data).getD "")
  else if p.parts.length > 0 then
    let textPart := p.parts.find? (fun q => q.mimeType == "text/plain")
    match textPart.bind Payload.data with
    | some d => d
    | none =>
      let htmlPart := p.parts.find? (fun q => q.mimeType == "text/html")
      match htmlPart.bind Payload.data with
      | some d => stripHtmlTags d
      | none => ""
  else ""

/-- A fetched Gmail message: id, `payload.headers` as (name, value) pairs,
and the payload body tree. -/
structure EmailMsg where
  id : String
  headers : List (String × String)
  payload : Payload

def binanceDomains : List String :=
  ["@binance.com", "@binancemail.com", "@info.binance.com", "@binance-mail.com",
   "@email.binance.com", "@binance.zendesk.com", "@dmail.binance.com",
   "@mgdirectmail.binance.com"]

/-- `isFromBinance(email)` (lines 52-109). -/
def isFromBinance (m : EmailMsg) : Bool :=
  match m.headers.find? (fun h => jsToLower h.1 == "from") with
  | none => false
  | some h =>
    let fromv := jsToLower h.2
    if binanceDomains.any (fun dm => jsIncludes fromv dm) then true
    else
      -- Line 84 calls `this.getEmailBody(email)` passing the whole message
      -- object, not its payload; that object has no mimeType/body/parts
      -- fields, so every branch of getEmailBody misses and body is "".
      let body := getEmailBody (.mk "" none [])
      if body == "" then false
      else if jsIncludes body fwdMarker then
        match (jsMatch forwardedFromRe body).bind (fun mm => mm.grp 1) with
        | some sender =>
          binanceDomains.any (fun dm => jsIncludes (jsToLower sender) dm)
        | none => false
      else false

/-- `isTransactionEmail(email)` (lines 116-152). -/
def isTransactionEmail (m : EmailMsg) : Bool :=
  match m.headers.find? (fun h => jsToLower h.1 == "subject") with
  | none => false
  | some h =>
    let subject := if isFwdSubject h.2 then fwdStrip h.2 else h.2
    let ls := jsToLower subject
    jsIncludes ls "transaction" || jsIncludes ls "deposit" ||
    jsIncludes ls "withdrawal" || jsIncludes ls "order" ||
    jsIncludes ls "complete" || jsIncludes ls "payment" || jsIncludes ls "trade"

/-! ## Dedup Ledger (`EmailProcessingRecord`) and the ingestion pipeline -/

/-- One `EmailProcessingRecord` document (fields the service populates). -/
structure LedgerEntry where
  messageId : String
  emailDate : Option Int
  subject : Option String
  fromAddr : Option String
  status : String
  errorMessage : Option String
  transactionIds : List String
deriving DecidableEq, Repr

abbrev Ledger := List LedgerEntry

/-- The `status` enum of `emailProcessingRecord.js` (lines 39-43):
`['PROCESSED', 'IGNORED', 'ERROR', 'SKIPPED']` — note the absence of
`'FAILED'`. -/
def validStatuses : List String := ["PROCESSED", "IGNORED", "ERROR", "SKIPPED"]

/-- `EmailProcessingRecord.create(...)`: Mongoose validates the `status`
enum and the unique index on `messageId`; a violation rejects the promise. -/
def ledgerCreate (L : Ledger) (e : LedgerEntry) : Except String Ledger :=
  if !(validStatuses.contains e.status) then
    .error ("ValidationError: " ++ e.status ++
      " is not a valid enum value for path status")
  else if (L.find? (fun x => x.messageId == e.messageId)).isSome then
    .error "E11000 duplicate key error"
  else .ok (L ++ [e])

/-- Look up the ledger entry for a message id
(`EmailProcessingRecord.findOne({ messageId })`). -/
def ledgerFind (L : Ledger) (id : String) : Option LedgerEntry :=
  L.find? (fun x => x.messageId == id)

/-- Header lookups of `processEmail` lines 267-270 (note the exact-case
`===` comparison on the header name, unlike `isFromBinance`). -/
def msgSubject (m : EmailMsg) : String :=
  ((m.headers.find? (fun h => h.1 == "Subject")).map (fun h => h.2)).getD ""

def msgFrom (m : EmailMsg) : String :=
  ((m.headers.find? (fun h => h.1 == "From")).map (fun h => h.2)).getD ""

def msgDate (m : EmailMsg) : String :=
  ((m.headers.find? (fun h => h.1 == "Date")).map (fun h => h.2)).getD ""

/-- The decision part of `processEmail(messageId)` (lines 240-336), given the
already-fetched message: which ledger entry to write and which transactions
to return.  `dateParse` is the `new Date(header)` oracle (`none` = Invalid
Date, making the `toISOString()` call of line 273 throw, modelled as
`.error`).  Every non-throwing path of the JS function performs exactly one
`EmailProcessingRecord.create` with the returned entry and then returns the
returned list. -/
def emailOutcome (dateParse : String → Option Int) (ctx : Ctx) (m : EmailMsg) :
    Except String (LedgerEntry × List Tx) :=
  if !(isFromBinance m) then
    .ok ({ messageId := m.id, emailDate := some ctx.now,
           subject := none, fromAddr := none, status := "IGNORED",
           errorMessage := some "Not a Binance email", transactionIds := [] }, [])
  else
    match dateParse (msgDate m) with
    | none => .error "Invalid time value"
    | some emailDate =>
      if !(isTransactionEmail m) then
        .ok ({ messageId := m.id, emailDate := some emailDate,
               subject := some (msgSubject m), fromAddr := some (msgFrom m),
               status := "IGNORED", errorMessage := none,
               transactionIds := [] }, [])
      else
        let body := getEmailBody m.payload
        let eIgn : LedgerEntry :=
          { messageId := m.id, emailDate := some emailDate,
            subject := some (msgSubject m), fromAddr := some (msgFrom m),
            status := "IGNORED",
            errorMessage := some "No transaction details found",
            transactionIds := [] }
        match extractTransactionDetails ctx body (msgSubject m) emailDate with
        | none => .ok (eIgn, [])
        | some [] => .ok (eIgn, [])
        | some txs =>
          .ok ({ messageId := m.id, emailDate := some emailDate,
                 subject := some (msgSubject m), fromAddr := some (msgFrom m),
                 status := "PROCESSED", errorMessage := none,
                 transactionIds := txs.map (fun t => t.orderId) }, txs)

/-- `processEmail`: decide the outcome, persist it via
`EmailProcessingRecord.create`, return the transactions.  A thrown error
(from the date, or from the create itself) propagates to the caller. -/
def processEmail (dateParse : String → Option Int) (ctx : Ctx) (L : Ledger)
    (m : EmailMsg) : Except String (Ledger × List Tx) :=
  match emailOutcome dateParse ctx m with
  | .error e => .error e
  | .ok (entry, txs) =>
    match ledgerCreate L entry with
    | .error e => .error e
    | .ok L' => .ok (L', txs)

/-- One iteration of the message loop of `fetchTodayBinanceEmails`
(lines 194-220): dedup check, then processEmail, with the catch block that
records a `FAILED` outcome (whose create is itself subject to the schema's
status enum). -/
def processOne (dateParse : String → Option Int) (ctx : Ctx) (L : Ledger)
    (m : EmailMsg) : Except String (Ledger × List Tx) :=
  if (ledgerFind L m.id).isSome then .ok (L, [])
  else
    match processEmail dateParse ctx L m with
    | .ok r => .ok r
    | .error e =>
      let eF : LedgerEntry :=
        { messageId := m.id, emailDate := some ctx.now,
          subject := none, fromAddr := none, status := "FAILED",
          errorMessage := some e, transactionIds := [] }
      match ledgerCreate L eF with
      | .ok L' => .ok (L', [])
      | .error e2 => .error e2

/-- The message loop of `fetchTodayBinanceEmails` over an already-fetched
batch: accumulates produced transactions; an error escaping an iteration
(rethrown by the outer catch, line 231) aborts the run. -/
def runPipeline (dateParse : String → Option Int) (ctx : Ctx) :
    List EmailMsg → Ledger → Except String (Ledger × List Tx)
  | [], L => .ok (L, [])
  | m :: ms, L =>
    match processOne dateParse ctx L m with
    | .error e => .error e
    | .ok (L', txs) =>
      match runPipeline dateParse ctx ms L' with
      | .error e => .error e
      | .ok (L2, rest) => .ok (L2, txs ++ rest)

/-! ## Engine lemmas -/

theorem memOfHead? {α : Type} {l : List α} {x : α} (h : l.head? = some x) :
    x ∈ l := by
  cases l with
  | nil => simp at h
  | cons a t =>
    simp at h
    simp [h]

theorem strStep_suffix {ci : Bool} :
    ∀ {s cs : List Char} {prev : Option Char} {out},
      strStep ci s cs prev = some out → out.1 <:+ cs := by
  intro s
  induction s with
  | nil =>
    intro cs prev out h
    simp [strStep] at h
    simp [← h]
  | cons p ps ih =>
    intro cs prev out h
    cases cs with
    | nil => simp [strStep] at h
    | cons c cs0 =>
      simp only [strStep] at h
      split at h
      · exact (ih h).trans (List.suffix_cons c cs0)
      · exact absurd h (by simp)

theorem starCls_suffix {p : Char → Bool} {lz : Bool} :
    ∀ {cs : List Char} {prev : Option Char} {out},
      out ∈ starCls p lz cs prev → out.1 <:+ cs := by
  intro cs
  induction cs with
  | nil =>
    intro prev out h
    simp [starCls] at h
    simp [h]
  | cons c rest ih =>
    intro prev out h
    simp only [starCls] at h
    have hgo : out ∈ (if p c then starCls p lz rest (some c) else []) →
        out.1 <:+ c :: rest := by
      intro hm
      split at hm
      · exact (ih hm).trans (List.suffix_cons c rest)
      · simp at hm
    split at h
    · rcases List.mem_cons.mp h with h1 | h2
      · simp [h1]
      · exact hgo h2
    · rcases List.mem_append.mp h with h1 | h2
      · exact hgo h1
      · simp at h2
        simp [h2]

theorem repCls_suffix {p : Char → Bool} :
    ∀ {hi lo : Nat} {cs : List Char} {prev : Option Char} {out},
      out ∈ repCls p lo hi cs prev → out.1 <:+ cs := by
  intro hi
  induction hi with
  | zero =>
    intro lo cs prev out h
    simp only [repCls] at h
    split at h
    · simp at h
      simp [h]
    · simp at h
  | succ n ih =>
    intro lo cs prev out h
    simp only [repCls] at h
    have hstay : out ∈ (if lo == 0 then [(cs, prev)] else []) → out.1 <:+ cs := by
      intro hm
      split at hm
      · simp at hm
        simp [hm]
      · simp at hm
    cases cs with
    | nil => exact hstay h
    | cons c rest =>
      rcases List.mem_append.mp h with h1 | h2
      · split at h1
        · exact (ih h1).trans (List.suffix_cons c rest)
        · simp at h1
      · exact hstay h2

theorem matchRE_suffix :
    ∀ {r : RE} {cs : List Char} {prev : Option Char} {caps : Caps} {out},
      out ∈ matchRE r cs prev caps → out.1 <:+ cs := by
  intro r
  induction r with
  | eps =>
    intro cs prev caps out h
    simp [matchRE] at h
    simp [h]
  | str ci s =>
    intro cs prev caps out h
    simp only [matchRE] at h
    split at h
    · simp at h
      rename_i heq
      have := strStep_suffix heq
      simp [h]
      exact this
    · simp at h
  | cls p =>
    intro cs prev caps out h
    cases cs with
    | nil => simp [matchRE] at h
    | cons c rest =>
      simp only [matchRE] at h
      split at h
      · simp at h
        simp [h, List.suffix_cons c rest]
      · simp at h
  | optR r ih =>
    intro cs prev caps out h
    rcases List.mem_append.mp h with h1 | h2
    · exact ih h1
    · simp at h2
      simp [h2]
  | star p lz =>
    intro cs prev caps out h
    simp only [matchRE, List.mem_map] at h
    rcases h with ⟨x, hx, hxe⟩
    have := starCls_suffix hx
    simp [← hxe]
    exact this
  | rep p lo hi =>
    intro cs prev caps out h
    simp only [matchRE, List.mem_map] at h
    rcases h with ⟨x, hx, hxe⟩
    have := repCls_suffix hx
    simp [← hxe]
    exact this
  | seq a b iha ihb =>
    intro cs prev caps out h
    simp only [matchRE, List.mem_flatMap] at h
    rcases h with ⟨x, hx, hb⟩
    exact (ihb hb).trans (iha hx)
  | alt a b iha ihb =>
    intro cs prev caps out h
    rcases List.mem_append.mp h with h1 | h2
    · exact iha h1
    · exact ihb h2
  | group i r ih =>
    intro cs prev caps out h
    simp only [matchRE, List.mem_map] at h
    rcases h with ⟨x, hx, hxe⟩
    have := ih hx
    simp [← hxe]
    exact this
  | eos =>
    intro cs prev caps out h
    simp only [matchRE] at h
    split at h
    · simp at h
      simp [h]
    · simp at h
  | wordB =>
    intro cs prev caps out h
    simp only [matchRE] at h
    split at h
    · simp at h
      simp [h]
    · simp at h

/-- Syntactic criterion: every way of matching `r` must consume a literal
`'.'` (only case-sensitive literals are inspected, which is how every dot in
the source patterns is embedded). -/
def needsDot : RE → Bool
  | .str ci s => !ci && s.contains '.'
  | .seq a b => needsDot a || needsDot b
  | .alt a b => needsDot a && needsDot b
  | .group _ r => needsDot r
  | _ => false

theorem strStep_dot :
    ∀ {s cs : List Char} {prev : Option Char} {out},
      strStep false s cs prev = some out → '.' ∈ s → '.' ∈ cs := by
  intro s
  induction s with
  | nil =>
    intro cs prev out _ hd
    simp at hd
  | cons p ps ih =>
    intro cs prev out h hd
    cases cs with
    | nil => simp [strStep] at h
    | cons c cs0 =>
      simp only [strStep] at h
      by_cases hpc : p = c
      · subst hpc
        simp only [ciEq, Bool.false_eq_true, if_false, beq_self_eq_true, if_true] at h
        rcases List.mem_cons.mp hd with h1 | h2
        · exact List.mem_cons.mpr (Or.inl h1)
        · exact List.mem_cons.mpr (Or.inr (ih h h2))
      · have hne : ciEq false p c = false := by simp [ciEq, hpc]
        rw [hne] at h
        simp at h

theorem matchRE_dot :
    ∀ {r : RE} {cs : List Char} {prev : Option Char} {caps : Caps} {out},
      needsDot r = true → out ∈ matchRE r cs prev caps → '.' ∈ cs := by
  intro r
  induction r with
  | eps => intro cs prev caps out hn _; simp [needsDot] at hn
  | str ci s =>
    intro cs prev caps out hn h
    simp only [needsDot, Bool.and_eq_true, Bool.not_eq_eq_eq_not, Bool.not_true] at hn
    obtain ⟨hci, hcont⟩ := hn
    subst hci
    simp only [matchRE] at h
    split at h
    · rename_i heq
      exact strStep_dot heq (by simpa using hcont)
    · simp at h
  | cls p => intro cs prev caps out hn _; simp [needsDot] at hn
  | optR r ih => intro cs prev caps out hn _; simp [needsDot] at hn
  | star p lz => intro cs prev caps out hn _; simp [needsDot] at hn
  | rep p lo hi => intro cs prev caps out hn _; simp [needsDot] at hn
  | seq a b iha ihb =>
    intro cs prev caps out hn h
    simp only [matchRE, List.mem_flatMap] at h
    rcases h with ⟨x, hx, hb⟩
    simp only [needsDot, Bool.or_eq_true] at hn
    rcases hn with hna | hnb
    · exact iha hna hx
    · exact (matchRE_suffix hx).subset (ihb hnb hb)
  | alt a b iha ihb =>
    intro cs prev caps out hn h
    simp only [needsDot, Bool.and_eq_true] at hn
    rcases List.mem_append.mp h with h1 | h2
    · exact iha hn.1 h1
    · exact ihb hn.2 h2
  | group i r ih =>
    intro cs prev caps out hn h
    simp only [matchRE, List.mem_map] at h
    rcases h with ⟨x, hx, _⟩
    exact ih (by simpa [needsDot] using hn) hx
  | eos => intro cs prev caps out hn _; simp [needsDot] at hn
  | wordB => intro cs prev caps out hn _; simp [needsDot] at hn

theorem searchFrom_dot {r : RE} :
    ∀ {cs : List Char} {prev : Option Char} {out},
      searchFrom r cs prev = some out → needsDot r = true → '.' ∈ cs := by
  intro cs
  induction cs with
  | nil =>
    intro prev out h hn
    simp only [searchFrom] at h
    split at h
    · rename_i res heq
      exact absurd (matchRE_dot hn (memOfHead? heq)) (by simp)
    · exact absurd h (by simp)
  | cons c rest ih =>
    intro prev out h hn
    simp only [searchFrom] at h
    split at h
    · rename_i res heq
      exact matchRE_dot hn (memOfHead? heq)
    · exact List.mem_cons.mpr (Or.inr (ih h hn))

theorem jsMatch_dot {r : RE} {s : String} {m : MatchResult}
    (h : jsMatch r s = some m) (hn : needsDot r = true) : '.' ∈ s.toList := by
  simp only [jsMatch] at h
  split at h
  · rename_i out heq
    exact searchFrom_dot heq hn
  · exact absurd h (by simp)

theorem jsMatch_none_of_no_dot {r : RE} {s : String}
    (hn : needsDot r = true) (hs : '.' ∉ s.toList) : jsMatch r s = none := by
  cases h : jsMatch r s with
  | none => rfl
  | some m => exact absurd (jsMatch_dot h hn) hs

/-! ## Ledger and pipeline lemmas -/

theorem ledgerCreate_ok {L L' : Ledger} {e : LedgerEntry}
    (h : ledgerCreate L e = .ok L') : L' = L ++ [e] := by
  simp only [ledgerCreate] at h
  split at h
  · exact absurd h (by simp)
  · split at h
    · exact absurd h (by simp)
    · simpa using h.symm

theorem ledgerFind_append {L : Ledger} {e : LedgerEntry} {id : String} :
    ledgerFind (L ++ [e]) id = ((ledgerFind L id).or (ledgerFind [e] id)) := by
  simp only [ledgerFind, List.find?_append]

theorem ledgerFind_append_isSome {L : Ledger} {e : LedgerEntry} {id : String}
    (h : (ledgerFind L id).isSome) : (ledgerFind (L ++ [e]) id).isSome := by
  rw [ledgerFind_append]
  cases hL : ledgerFind L id with
  | none => rw [hL] at h; simp at h
  | some x => simp [Option.or]

theorem ledgerFind_single_self {e : LedgerEntry} :
    ledgerFind [e] e.messageId = some e := by
  simp [ledgerFind, List.find?]

theorem ledgerFind_append_self {L : Ledger} {e : LedgerEntry} :
    (ledgerFind (L ++ [e]) e.messageId).isSome := by
  rw [ledgerFind_append, ledgerFind_single_self]
  cases hL : ledgerFind L e.messageId with
  | none => simp [Option.or]
  | some x => simp [Option.or]

theorem emailOutcome_id {dp : String → Option Int} {ctx : Ctx} {m : EmailMsg}
    {e : LedgerEntry} {txs : List Tx}
    (h : emailOutcome dp ctx m = .ok (e, txs)) : e.messageId = m.id := by
  unfold emailOutcome at h
  split at h
  · simp at h
    simp [← h.1]
  · split at h
    · exact absurd h (by simp)
    · split at h
      · simp at h
        simp [← h.1]
      · dsimp only at h
        split at h
        · simp at h
          simp [← h.1]
        · simp at h
          simp [← h.1]
        · simp at h
          simp [← h.1]

theorem processEmail_ok_shape {dp : String → Option Int} {ctx : Ctx}
    {L L' : Ledger} {m : EmailMsg} {txs : List Tx}
    (h : processEmail dp ctx L m = .ok (L', txs)) :
    ∃ e : LedgerEntry, e.messageId = m.id ∧ L' = L ++ [e] := by
  simp only [processEmail] at h
  split at h
  · exact absurd h (by simp)
  · rename_i entry etxs heq
    split at h
    · exact absurd h (by simp)
    · rename_i L2 hcr
      simp at h
      refine ⟨entry, emailOutcome_id heq, ?_⟩
      rw [← h.1]
      exact ledgerCreate_ok hcr

theorem processOne_skip {dp : String → Option Int} {ctx : Ctx} {L : Ledger}
    {m : EmailMsg} (h : (ledgerFind L m.id).isSome) :
    processOne dp ctx L m = .ok (L, []) := by
  simp [processOne, h]

theorem ledgerCreate_invalid {L : Ledger} {e : LedgerEntry}
    (h : e.status = "FAILED") :
    ledgerCreate L e =
      .error ("ValidationError: " ++ e.status ++
        " is not a valid enum value for path status") := by
  simp [ledgerCreate, h, validStatuses]

theorem processOne_ok_shape {dp : String → Option Int} {ctx : Ctx}
    {L L' : Ledger} {m : EmailMsg} {txs : List Tx}
    (h : processOne dp ctx L m = .ok (L', txs)) :
    (L' = L ∧ (ledgerFind L m.id).isSome) ∨
      ∃ e : LedgerEntry, e.messageId = m.id ∧ L' = L ++ [e] := by
  simp only [processOne] at h
  split at h
  · rename_i hfind
    simp at h
    exact Or.inl ⟨h.1.symm, hfind⟩
  · split at h
    · rename_i r hpe
      simp at h
      subst h
      exact Or.inr (processEmail_ok_shape hpe)
    · -- the catch block: `ledgerCreate` with status "FAILED" always rejects
      split at h
      · rename_i L2 hcr
        rw [ledgerCreate_invalid rfl] at hcr
        exact absurd hcr (by simp)
      · exact absurd h (by simp)

theorem processOne_preserves {dp : String → Option Int} {ctx : Ctx}
    {L L' : Ledger} {m : EmailMsg} {txs : List Tx}
    (h : processOne dp ctx L m = .ok (L', txs)) {id : String}
    (hid : (ledgerFind L id).isSome) : (ledgerFind L' id).isSome := by
  rcases processOne_ok_shape h with ⟨h1, _⟩ | ⟨e, _, h2⟩
  · rw [h1]; exact hid
  · rw [h2]; exact ledgerFind_append_isSome hid

theorem processOne_adds {dp : String → Option Int} {ctx : Ctx}
    {L L' : Ledger} {m : EmailMsg} {txs : List Tx}
    (h : processOne dp ctx L m = .ok (L', txs)) :
    (ledgerFind L' m.id).isSome := by
  rcases processOne_ok_shape h with ⟨h1, h2⟩ | ⟨e, he, h2⟩
  · rw [h1]; exact h2
  · rw [h2, ← he]; exact ledgerFind_append_self

theorem runPipeline_preserves {dp : String → Option Int} {ctx : Ctx} :
    ∀ {msgs : List EmailMsg} {L L1 : Ledger} {r : List Tx},
      runPipeline dp ctx msgs L = .ok (L1, r) → ∀ {id : String},
      (ledgerFind L id).isSome → (ledgerFind L1 id).isSome := by
  intro msgs
  induction msgs with
  | nil =>
    intro L L1 r h id hid
    simp [runPipeline] at h
    rw [← h.1]; exact hid
  | cons m ms ih =>
    intro L L1 r h id hid
    simp only [runPipeline] at h
    split at h
    · exact absurd h (by simp)
    · rename_i La r1 hp1
      split at h
      · exact absurd h (by simp)
      · rename_i Lb r2 hp2
        simp at h
        obtain ⟨hL, _⟩ := h
        subst hL
        exact ih hp2 (processOne_preserves hp1 hid)

theorem runPipeline_ok_has {dp : String → Option Int} {ctx : Ctx} :
    ∀ {msgs : List EmailMsg} {L L1 : Ledger} {r : List Tx},
      runPipeline dp ctx msgs L = .ok (L1, r) →
      ∀ m ∈ msgs, (ledgerFind L1 m.id).isSome := by
  intro msgs
  induction msgs with
  | nil => intro L L1 r _ m hm; simp at hm
  | cons m0 ms ih =>
    intro L L1 r h m hm
    simp only [runPipeline] at h
    split at h
    · exact absurd h (by simp)
    · rename_i La r1 hp1
      split at h
      · exact absurd h (by simp)
      · rename_i Lb r2 hp2
        simp at h
        obtain ⟨hL, _⟩ := h
        subst hL
        rcases List.mem_cons.mp hm with h1 | h2
        · subst h1
          exact runPipeline_preserves hp2 (processOne_adds hp1)
        · exact ih hp2 m h2

theorem runPipeline_all_skip {dp : String → Option Int} {ctx : Ctx} :
    ∀ {msgs : List EmailMsg} {L : Ledger},
      (∀ m ∈ msgs, (ledgerFind L m.id).isSome) →
      runPipeline dp ctx msgs L = .ok (L, []) := by
  intro msgs
  induction msgs with
  | nil => intro L _; simp [runPipeline]
  | cons m ms ih =>
    intro L h
    have h1 : processOne dp ctx L m = .ok (L, []) :=
      processOne_skip (h m (List.mem_cons_self m ms))
    have h2 : runPipeline dp ctx ms L = .ok (L, []) :=
      ih (fun x hx => h x (List.mem_cons.mpr (Or.inr hx)))
    simp [runPipeline, h1, h2]

/-! ## Concrete fixtures for witnesses and counterexamples -/

def exCtx : Ctx := { now := 1000, rand := "rnd" }

/-- A sample `new Date(header)` oracle: the only well-formed header is
`"D1"`. -/
def exDateParse : String → Option Int :=
  fun s => if s == "D1" then some 1700000000000 else none

def mkEmail (id subj fromv date body : String) : EmailMsg :=
  { id := id,
    headers := [("From", fromv), ("Subject", subj), ("Date", date)],
    payload := .mk "text/plain" (some body) [] }

/-- A parseable Binance deposit notification. -/
def exDeposit : EmailMsg :=
  mkEmail "m1" "USDT Deposit Confirmed" "no-reply@binance.com" "D1"
    "Your deposit of 10,000 USDT is now available"

/-- A message from a non-Binance sender. -/
def exOther : EmailMsg :=
  mkEmail "m2" "hello" "foo@example.com" "D1" "nothing"

/-- A Binance message whose `Date:` header the `Date` constructor rejects:
`emailDate.toISOString()` at line 273 throws. -/
def exInvalidDate : EmailMsg :=
  mkEmail "m3" "USDT Deposit Confirmed" "no-reply@binance.com" "BAD"
    "Your deposit of 1.5 USDT is now available"

/-- A Binance withdrawal notification whose integer amount no withdrawal
pattern extracts: classified WITHDRAWAL, parser returns null. -/
def exUnparseable : EmailMsg :=
  mkEmail "m4" "USDT Withdrawal Successful" "no-reply@binance.com" "D1"
    "You have withdrawn 628 USDT"

/-- A Binance message with no transaction keyword in the subject. -/
def exNonTx : EmailMsg :=
  mkEmail "m5" "Greetings" "no-reply@binance.com" "D1" "just saying hi"

/-! ## Claim theorems -/

/-- C10: each of the three amount patterns of the withdrawal cascade
requires a decimal point (`[0-9,]+\.\d+`): any body one of them matches
must contain a `'.'`, so a body that contains no `'.'` at all — in
particular one whose amount is a bare integer — never yields a match, and
`parseWithdrawalEmail` returns null. -/
theorem c10_withdrawal_requires_decimal :
    (∀ (body : String) (m : MatchResult),
      (jsMatch wp1 body = some m ∨ jsMatch wp2 body = some m ∨
        jsMatch wp3 body = some m) → '.' ∈ body.toList) ∧
    (∀ (ctx : Ctx) (body : String) (d : Int),
      '.' ∉ body.toList → parseWithdrawalEmail ctx body d = none) := by
  constructor
  · intro body m hm
    rcases hm with hm | hm | hm
    · exact jsMatch_dot hm (by rfl)
    · exact jsMatch_dot hm (by rfl)
    · exact jsMatch_dot hm (by rfl)
  · intro ctx body d h
    have h1 : jsMatch wp1 body = none := jsMatch_none_of_no_dot (by rfl) h
    have h2 : jsMatch wp2 body = none := jsMatch_none_of_no_dot (by rfl) h
    have h3 : jsMatch wp3 body = none := jsMatch_none_of_no_dot (by rfl) h
    simp [parseWithdrawalEmail, withdrawalPatterns, List.findSome?, h1, h2, h3]

/-- Witness for C10 at the body `"You have withdrawn 628 USDT"`. -/
theorem c10_witness :
    ('.' ∉ "You have withdrawn 628 USDT".toList) ∧
    parseWithdrawalEmail exCtx "You have withdrawn 628 USDT" 5 = none :=
  ⟨by decide,
   c10_withdrawal_requires_decimal.2 exCtx "You have withdrawn 628 USDT" 5 (by decide)⟩

/-- The five specific subject patterns of §4.1 step 2, in source order,
with the transaction type each one selects (spec-side list used to state
the priority property). -/
def subjectPriorityList : List (String × String) :=
  [("USDT Deposit Confirmed", "DEPOSIT"),
   ("USDT Withdrawal Successful", "WITHDRAWAL"),
   ("P2P order completed", "P2P_SELL"),
   ("Order Filled", "TRADE"),
   ("Payment Transaction Detail", "PAYMENT")]

/-- First-match-wins classification over that list. -/
def priorityClassify (ns : String) : Option String :=
  (subjectPriorityList.find? (fun p => jsTest (litCI p.1) ns)).map Prod.snd

/-- C7: subject type detection agrees with first-match-wins over the fixed
priority list: whenever at least one of the five patterns matches (so in
particular when several match), the detected type is the one of the
earliest matching pattern. -/
theorem c7_subject_priority (ns nb ty : String)
    (h : priorityClassify ns = some ty) : (detectTypeSide ns nb).1 = ty := by
  simp only [priorityClassify, subjectPriorityList] at h
  unfold detectTypeSide
  cases h1 : jsTest (litCI "USDT Deposit Confirmed") ns with
  | true => simp [List.find?, h1] at h; simp [h1, ← h]
  | false =>
  cases h2 : jsTest (litCI "USDT Withdrawal Successful") ns with
  | true => simp [List.find?, h1, h2] at h; simp [h1, h2, ← h]
  | false =>
  cases h3 : jsTest (litCI "P2P order completed") ns with
  | true => simp [List.find?, h1, h2, h3] at h; simp [h1, h2, h3, ← h]
  | false =>
  cases h4 : jsTest (litCI "Order Filled") ns with
  | true => simp [List.find?, h1, h2, h3, h4] at h; simp [h1, h2, h3, h4, ← h]
  | false =>
  cases h5 : jsTest (litCI "Payment Transaction Detail") ns with
  | true =>
    simp [List.find?, h1, h2, h3, h4, h5] at h
    simp [h1, h2, h3, h4, h5, ← h]
  | false => simp [List.find?, h1, h2, h3, h4, h5] at h

/-- Witness for C7: a subject matching both the deposit pattern (first) and
the trade pattern (fourth) resolves to DEPOSIT. -/
theorem c7_witness :
    jsTest (litCI "USDT Deposit Confirmed") "USDT Deposit Confirmed Order Filled" = true ∧
    jsTest (litCI "Order Filled") "USDT Deposit Confirmed Order Filled" = true ∧
    (detectTypeSide "USDT Deposit Confirmed Order Filled" "").1 = "DEPOSIT" :=
  ⟨by decide, by decide,
   c7_subject_priority "USDT Deposit Confirmed Order Filled" "" "DEPOSIT" (by decide)⟩

/-- C8: whenever the deposit pattern loop extracts a quantity but no
currency (neither captured by the matching pattern nor found by the
standalone whitelist search — i.e. `depositScan` returns `none` for the
currency), and the quantity parses as a number, the parser still returns a
record with the default symbol `"USDT"`. -/
theorem c8_deposit_default_currency (ctx : Ctx) (body : String) (d : Int)
    (q : String) (v : ℚ) (h1 : depositScan body = some (q, none))
    (h2 : jsParseFloat q = some v) :
    parseDepositEmail ctx body d =
      some [{ transactionType := "DEPOSIT", orderId := "DEP" ++ toString ctx.now,
              platform := "BINANCE", status := "COMPLETED", symbol := "USDT",
              quantity := v, price := some 1, side := "BUY", time := d,
              updateTime := d, sourceType := "EMAIL", type := none,
              quoteQuantity := none, walletAddress := none,
              paymentDetails := none }] := by
  simp [parseDepositEmail, h1, h2]

/-- Witness for C8 at the body `"deposit of 100 !!"` (pattern 5 matches with
no currency group; no whitelist token occurs). -/
theorem c8_witness :
    depositScan "deposit of 100 !!" = some ("100", none) ∧
    parseDepositEmail exCtx "deposit of 100 !!" 5 =
      some [{ transactionType := "DEPOSIT", orderId := "DEP1000",
              platform := "BINANCE", status := "COMPLETED", symbol := "USDT",
              quantity := 100, price := some 1, side := "BUY", time := 5,
              updateTime := 5, sourceType := "EMAIL", type := none,
              quoteQuantity := none, walletAddress := none,
              paymentDetails := none }] :=
  ⟨by decide,
   c8_deposit_default_currency exCtx "deposit of 100 !!" 5 "100" 100
     (by decide) (by decide)⟩

/-- C1: dedup idempotence.  (a) A message id that already has a ledger
entry — of any status — is skipped outright: no classification, no parsing,
no records, no ledger write.  (b) Consequently, if a run over a batch
completes with ledger `L1`, running the same batch again against `L1`
yields zero records and leaves `L1` unchanged. -/
theorem c1_dedup_idempotent :
    (∀ (dp : String → Option Int) (ctx : Ctx) (L : Ledger) (m : EmailMsg),
      (ledgerFind L m.id).isSome → processOne dp ctx L m = .ok (L, [])) ∧
    (∀ (dp : String → Option Int) (ctx : Ctx) (msgs : List EmailMsg)
      (L L1 : Ledger) (r1 : List Tx),
      runPipeline dp ctx msgs L = .ok (L1, r1) →
      runPipeline dp ctx msgs L1 = .ok (L1, [])) :=
  ⟨fun _ _ _ _ h => processOne_skip h,
   fun _ _ _ _ _ _ h => runPipeline_all_skip (runPipeline_ok_has h)⟩

/-- The ledger produced by the first run over `[exDeposit, exOther]`. -/
def c1RunLedger : Ledger :=
  [{ messageId := "m1", emailDate := some 1700000000000,
     subject := some "USDT Deposit Confirmed",
     fromAddr := some "no-reply@binance.com", status := "PROCESSED",
     errorMessage := none, transactionIds := ["DEP1000"] },
   { messageId := "m2", emailDate := some 1000, subject := none,
     fromAddr := none, status := "IGNORED",
     errorMessage := some "Not a Binance email", transactionIds := [] }]

/-- The records produced by that first run. -/
def c1RunRecs : List Tx :=
  [{ orderId := "DEP1000", platform := "BINANCE", transactionType := "DEPOSIT",
     symbol := "USDT", side := "BUY", type := none, price := some 1,
     quantity := 10000, quoteQuantity := none, status := "COMPLETED",
     time := 1700000000000, updateTime := 1700000000000, walletAddress := none,
     paymentDetails := none, sourceType := "EMAIL" }]

/-- Witness for C1: a concrete two-message batch produces one record on the
first run; a message whose id already has an entry is skipped; and the
second run over the shared ledger yields zero records. -/
theorem c1_witness :
    runPipeline exDateParse exCtx [exDeposit, exOther] [] =
      .ok (c1RunLedger, c1RunRecs) ∧
    processOne exDateParse exCtx c1RunLedger exDeposit = .ok (c1RunLedger, []) ∧
    runPipeline exDateParse exCtx [exDeposit, exOther] c1RunLedger =
      .ok (c1RunLedger, []) :=
  ⟨by decide,
   c1_dedup_idempotent.1 exDateParse exCtx c1RunLedger exDeposit (by decide),
   c1_dedup_idempotent.2 exDateParse exCtx [exDeposit, exOther] [] c1RunLedger
     c1RunRecs (by decide)⟩

/-- C2 (amended): when a Binance transaction email of known type yields no
parsed transactions (the extractor returns null or an empty list), the
pipeline records `IGNORED` with reason `"No transaction details found"` —
not `FAILED` — and produces zero records. -/
theorem c2_unparseable_is_ignored (dp : String → Option Int) (ctx : Ctx)
    (L : Ledger) (m : EmailMsg) (d : Int)
    (hB : isFromBinance m = true)
    (hD : dp (msgDate m) = some d)
    (hT : isTransactionEmail m = true)
    (hE : extractTransactionDetails ctx (getEmailBody m.payload) (msgSubject m) d = none ∨
          extractTransactionDetails ctx (getEmailBody m.payload) (msgSubject m) d = some [])
    (hL : ledgerFind L m.id = none) :
    processEmail dp ctx L m =
      .ok (L ++ [{ messageId := m.id, emailDate := some d,
                   subject := some (msgSubject m), fromAddr := some (msgFrom m),
                   status := "IGNORED",
                   errorMessage := some "No transaction details found",
                   transactionIds := [] }], []) := by
  have hO : emailOutcome dp ctx m =
      .ok ({ messageId := m.id, emailDate := some d,
             subject := some (msgSubject m), fromAddr := some (msgFrom m),
             status := "IGNORED",
             errorMessage := some "No transaction details found",
             transactionIds := [] }, []) := by
    unfold emailOutcome
    rw [hB, hD, hT]
    rcases hE with hE | hE <;> simp [hE]
  unfold processEmail
  rw [hO]
  simp only [ledgerFind] at hL
  simp [ledgerCreate, validStatuses, hL]

/-- Witness for C2 (amended) at the concrete unparseable withdrawal
email. -/
theorem c2_witness :
    processEmail exDateParse exCtx [] exUnparseable =
      .ok ([{ messageId := "m4", emailDate := some 1700000000000,
              subject := some "USDT Withdrawal Successful",
              fromAddr := some "no-reply@binance.com", status := "IGNORED",
              errorMessage := some "No transaction details found",
              transactionIds := [] }], []) :=
  c2_unparseable_is_ignored exDateParse exCtx [] exUnparseable 1700000000000
    (by decide) (by decide) (by decide) (Or.inl (by decide)) (by decide)

/-- Counterexample to C2 as stated: `exUnparseable` is classified
WITHDRAWAL, its parser returns null, yet the recorded outcome is `IGNORED`
(the claim requires `FAILED`). -/
theorem c2_counterexample :
    detectTypeSide "USDT Withdrawal Successful" "You have withdrawn 628 USDT" =
      ("WITHDRAWAL", "SELL") ∧
    parseWithdrawalEmail exCtx "You have withdrawn 628 USDT" 1700000000000 = none ∧
    (processEmail exDateParse exCtx [] exUnparseable).map
      (fun r => r.1.map (fun e => e.status)) = .ok ["IGNORED"] ∧
    ("IGNORED" : String) ≠ "FAILED" :=
  ⟨by decide, by decide, by decide, by decide⟩

/-- C3: the gmailService catch block records failures with
`status: "FAILED"`, but the `emailProcessingRecord` schema enum
(`PROCESSED/IGNORED/ERROR/SKIPPED`) does not admit `FAILED`, so the create
in the catch block itself rejects, the rejection propagates, and a batch
with one throwing message (#3, an invalid `Date:` header) aborts instead of
isolating the failure — messages #4 and #5 are never processed. -/
theorem c3_failed_write_aborts_batch :
    validStatuses.contains "FAILED" = false ∧
    runPipeline exDateParse exCtx
      [exDeposit, exOther, exInvalidDate, exUnparseable, exNonTx] [] =
      .error "ValidationError: FAILED is not a valid enum value for path status" :=
  ⟨by decide, by decide⟩

/-- C4 (amended): deposit, withdrawal, P2P and payment records are produced
with status `COMPLETED`, but trade records are produced with status
`FILLED`. -/
theorem c4_status_per_type (ctx : Ctx) (body subj : String) (d : Int)
    (side : String) :
    (((parseDepositEmail ctx body d).getD []).all
      (fun tx => tx.status == "COMPLETED")) = true ∧
    (((parseWithdrawalEmail ctx body d).getD []).all
      (fun tx => tx.status == "COMPLETED")) = true ∧
    ((parseP2PEmail ctx body d).all (fun tx => tx.status == "COMPLETED")) = true ∧
    ((parsePaymentEmail ctx body subj d).all
      (fun tx => tx.status == "COMPLETED")) = true ∧
    ((parseTradeEmail ctx body d side).all (fun tx => tx.status == "FILLED")) = true := by
  refine ⟨?_, ?_, ?_, ?_, ?_⟩
  · unfold parseDepositEmail
    split
    · simp
    · split <;> simp
  · unfold parseWithdrawalEmail
    split <;> simp
  · unfold parseP2PEmail
    split <;> simp
  · unfold parsePaymentEmail
    repeat' split
    all_goals simp
  · unfold parseTradeEmail
    split <;> simp

/-- Witness for C4 (amended) at concrete parser inputs. -/
theorem c4_witness :
    (((parseDepositEmail exCtx "Your deposit of 1.5 USDT is now available" 5).getD []).all
      (fun tx => tx.status == "COMPLETED")) = true ∧
    (((parseWithdrawalEmail exCtx "Your deposit of 1.5 USDT is now available" 5).getD []).all
      (fun tx => tx.status == "COMPLETED")) = true ∧
    ((parseP2PEmail exCtx "Your deposit of 1.5 USDT is now available" 5).all
      (fun tx => tx.status == "COMPLETED")) = true ∧
    ((parsePaymentEmail exCtx "Your deposit of 1.5 USDT is now available"
      "[Binance]Payment Transaction Detail" 5).all
      (fun tx => tx.status == "COMPLETED")) = true ∧
    ((parseTradeEmail exCtx "Your deposit of 1.5 USDT is now available" 5 "BUY").all
      (fun tx => tx.status == "FILLED")) = true :=
  c4_status_per_type exCtx "Your deposit of 1.5 USDT is now available"
    "[Binance]Payment Transaction Detail" 5 "BUY"

/-- Counterexample to C4 as stated: a parsed trade record has status
`FILLED`, not `COMPLETED`. -/
theorem c4_counterexample :
    (parseTradeEmail exCtx "1.5 BTC" 5 "BUY").map (fun t => t.status) = ["FILLED"] ∧
    ("FILLED" : String) ≠ "COMPLETED" :=
  ⟨by decide, by decide⟩

/-- C5 (amended): the deposit, withdrawal and payment parsers strip
thousands-separator commas before parsing (`"10,000.50"` → `10000.5`), but
the P2P and trade parsers do not admit commas in their numeric pattern and
extract only the post-comma fragment (`"10,000.50"` → `0.5`). -/
theorem c5_comma_handling_per_type :
    ((parseDepositEmail exCtx "Your deposit of 10,000.50 USDT has arrived" 5).getD []).map
      (fun t => t.quantity) = [mkRat 20001 2] ∧
    ((parseWithdrawalEmail exCtx "You have withdrawn 10,000.50 USDT" 5).getD []).map
      (fun t => t.quantity) = [mkRat 20001 2] ∧
    (parsePaymentEmail exCtx "Amount: 10,000.50 USDT"
      "[Binance]Payment Transaction Detail" 5).map
      (fun t => t.quantity) = [mkRat 20001 2] ∧
    (parseTradeEmail exCtx "10,000.50 USDT" 5 "BUY").map
      (fun t => t.quantity) = [mkRat 1 2] ∧
    (parseP2PEmail exCtx "Sold 10,000.50 USDT for 500.25 USD" 5).map
      (fun t => t.quantity) = [mkRat 1 2] :=
  ⟨by decide, by decide, by decide, by decide, by decide⟩

/-- Counterexample to C5 as stated: the trade parser extracts `0.5` (the
post-comma fragment), not `10000.5`, from `"10,000.50 USDT"`. -/
theorem c5_counterexample :
    (parseTradeEmail exCtx "10,000.50 USDT" 5 "BUY").map
      (fun t => t.quantity) = [mkRat 1 2] ∧
    mkRat 1 2 ≠ mkRat 20001 2 :=
  ⟨by decide, by decide⟩

/-- Body with the forwarding marker but a subject without a fwd prefix:
the source does not split it. -/
def c6NoFwdBody : String :=
  "deposit of 5.5 BTC x\n---------- Forwarded message ---------\ndeposit of 10.5 USDT"

def c6FwdSubject : String := "Fwd: [Binance] USDT Deposit Confirmed"

def c6FwdBody : String :=
  "commentary 9.9 XYZ\n---------- Forwarded message ---------\nYour deposit of 10.5 USDT is now available"

/-- C6 (amended): the forwarding-marker split of the body applies only when
the subject also carries a case-insensitive `fwd:`/`fw:` prefix; in that
case classification and extraction run on the post-marker text and the
stripped subject. -/
theorem c6_split_only_when_fwd (ctx : Ctx) (subject body : String) (d : Int)
    (h1 : isFwdSubject subject = true) (h2 : jsIncludes body fwdMarker = true) :
    extractTransactionDetails ctx body subject d =
      extractCore ctx (splitAfterMarker body) (fwdStrip subject) d := by
  simp [extractTransactionDetails, h1, h2]

/-- Witness for C6 (amended): the spec scenario — forwarded deposit subject
plus a marker-bearing body — classifies as DEPOSIT and extracts only the
post-marker amount (10.5 USDT), ignoring the pre-marker 9.9. -/
theorem c6_witness :
    isFwdSubject c6FwdSubject = true ∧
    jsIncludes c6FwdBody fwdMarker = true ∧
    extractTransactionDetails exCtx c6FwdBody c6FwdSubject 5 =
      extractCore exCtx (splitAfterMarker c6FwdBody) (fwdStrip c6FwdSubject) 5 ∧
    (extractCore exCtx (splitAfterMarker c6FwdBody) (fwdStrip c6FwdSubject) 5).map
      (List.map (fun t => (t.symbol, t.quantity))) = some [("USDT", mkRat 21 2)] :=
  ⟨by decide, by decide,
   c6_split_only_when_fwd exCtx c6FwdSubject c6FwdBody 5 (by decide) (by decide),
   by decide⟩

/-- Counterexample to C6 as stated: a body containing the marker but whose
subject has no fwd prefix is *not* split — the pre-marker number 5.5 BTC is
extracted even though 10.5 USDT follows the marker. -/
theorem c6_counterexample :
    jsIncludes c6NoFwdBody fwdMarker = true ∧
    (extractTransactionDetails exCtx c6NoFwdBody "USDT Deposit Confirmed" 5).map
      (List.map (fun t => (t.symbol, t.quantity))) = some [("BTC", mkRat 11 2)] :=
  ⟨by decide, by decide⟩

/-- C9 (amended): the payment parser returns empty exactly when the *title
extracted from the (fwd-stripped) subject* by `/\[Binance\](.*?)(?:\s*-\s*|$)/`
lacks the phrase — and when that pattern does not match at all (e.g. no
`[Binance]` tag), the title defaults to `"Payment Transaction Detail"` and
the check passes. -/
theorem c9_title_check (ctx : Ctx) (body subject : String) (d : Int)
    (h : jsIncludes
      (paymentTitle (if isFwdSubject subject then fwdStrip subject else subject))
      "Payment Transaction Detail" = false) :
    parsePaymentEmail ctx body subject d = [] := by
  simp [parsePaymentEmail, paymentTitle] at h ⊢
  simp [h]

/-- Witness for C9 (amended): a `[Binance]`-tagged subject whose extracted
title is `"Foo"` is rejected by the parser. -/
theorem c9_witness :
    paymentTitle "[Binance] Foo - bar" = "Foo" ∧
    parsePaymentEmail exCtx "for 10.50 USDT" "[Binance] Foo - bar" 5 = [] :=
  ⟨by decide,
   c9_title_check exCtx "for 10.50 USDT" "[Binance] Foo - bar" 5 (by decide)⟩

/-- Counterexample to C9 as stated: the subject `"Hello"` does not contain
`"Payment Transaction Detail"`, yet the parser returns a record, because
the failed title match falls back to the default title. -/
theorem c9_counterexample :
    jsIncludes "Hello" "Payment Transaction Detail" = false ∧
    (parsePaymentEmail exCtx "for 10.50 USDT" "Hello" 5).map
      (fun t => t.quantity) = [mkRat 21 2] :=
  ⟨by decide, by decide⟩

end AutoBitacora
